import Mathlib

/-!
A shallow embedding of the candidate-selection pipeline of
`milfbleusky.py`: timestamp probing (`parse_time`), the dedup ledger
(`load_repost_log` / `save_repost_log`), the feed pagination loop
(`fetch_feed_items`), the filter chain and the scheduler of `main`.
External collaborators are parameters: the iso-timestamp parser is an
arbitrary function `String → Option DT` (returning `none` where
`datetime.fromisoformat` would raise), and the network action calls are
arbitrary boolean oracles per candidate.
-/

namespace Milfbleusky

/-- Timestamps: `datetime` values are modelled as integers. Only order
comparisons on timestamps are used by the code, so any linearly ordered,
decidable time scale is faithful. -/
abbrev DT := Int

/-- The four timestamp-bearing attributes probed by `parse_time` on one
object (the post record or the feed post wrapper), in the probe order of
the source: `createdAt`, `indexedAt`, `created_at`, `timestamp`. `none`
models an absent attribute (`getattr(x, attr, None)` giving `None`). -/
structure TsSource where
  createdAt : Option String
  indexedAt : Option String
  created_at : Option String
  timestamp : Option String
deriving Repr, DecidableEq

/-- Python truthiness of an optional string: `None` and `""` are falsy. -/
def truthy : Option String → Bool
  | none => false
  | some s => !(s == "")

/-- The value of `getattr(record, attr, None) or getattr(post, attr, None)`
followed by the `if val:` guard: the first truthy of the two values, and
`none` when both are falsy (so that the attribute is skipped). -/
def pickVal (a b : Option String) : Option String :=
  if truthy a then a else if truthy b then b else none

/-- The attribute loop of `parse_time`: each entry of the list is the
(guarded) value chosen for one attribute name; an absent value, or a value
on which the parser fails (`datetime.fromisoformat` raising, caught by the
`except` clause), is skipped and the next attribute name is tried. -/
def firstParse (parse : String → Option DT) : List (Option String) → Option DT
  | [] => none
  | v :: rest =>
    match v with
    | none => firstParse parse rest
    | some s =>
      match parse s with
      | some t => some t
      | none => firstParse parse rest

/-- `parse_time(record, post)` from the source: for each attribute name in
`["createdAt", "indexedAt", "created_at", "timestamp"]` in order, take
`getattr(record, attr, None) or getattr(post, attr, None)`; if that value
is truthy, try to parse it, returning the first success. `parse` models
`val -> datetime.fromisoformat(val.replace("Z", "+00:00"))` with `none`
for a raised exception; `parse_time` itself is total — it never raises. -/
def parse_time (parse : String → Option DT) (record post : TsSource) : Option DT :=
  firstParse parse
    [pickVal record.createdAt post.createdAt,
     pickVal record.indexedAt post.indexedAt,
     pickVal record.created_at post.created_at,
     pickVal record.timestamp post.timestamp]

/-- Keep a value only when truthy (helper for the spec-worded probe order
below). -/
def truthyVal (a : Option String) : Option String :=
  if truthy a then a else none

/-- The timestamp extraction as claim C4 words it: the fixed list of field
names is checked on the content record FIRST, and then the same list on
the feed-wrapper object; the first present (truthy), parseable value wins.
This definition follows the spec's words, for comparison with the
source-derived `parse_time`. -/
def parse_time_specOrder (parse : String → Option DT) (record post : TsSource) : Option DT :=
  firstParse parse
    ([record.createdAt, record.indexedAt, record.created_at, record.timestamp,
      post.createdAt, post.indexedAt, post.created_at, post.timestamp].map truthyVal)

/-- Python's `str.strip()` with no argument: drop leading and trailing
whitespace characters. -/
def pyStrip (s : String) : String :=
  String.mk (((s.toList.dropWhile Char.isWhitespace).reverse.dropWhile Char.isWhitespace).reverse)

/-- `load_repost_log(path)`: the file is modelled by the optional list of
its lines (`none` when `os.path.exists` is false; iterating an open file
yields its lines, terminators included — harmless here since every line is
stripped). A missing file yields the empty set (the first-run condition,
not an error); an existing file yields `{line.strip() for line in f if
line.strip()}`: the set of stripped, non-blank lines. Total: there is no
error case. -/
def load_repost_log (file : Option (List String)) : Finset String :=
  match file with
  | none => ∅
  | some lines => ((lines.map pyStrip).filter (fun l => l ≠ "")).toFinset

/-- Ledger loading as claim C9 words it for an existing file: the set of
the file's non-blank lines, each kept verbatim (a blank line being one
that is empty or whitespace-only). This definition follows the spec's
words, for comparison with the source-derived `load_repost_log`. -/
def load_nonBlankLines (lines : List String) : Finset String :=
  (lines.filter (fun l => pyStrip l ≠ "")).toFinset

/-- The uris in the order `sorted(uris)` produces: ascending (code-point
lexicographic, the order Python and Lean agree on for strings). The set
argument is modelled as a list in iteration order. -/
def sortedUris (uris : List String) : List String :=
  List.insertionSort (fun a b : String => a ≤ b) uris

/-- The byte content written by `save_repost_log`: every uri in ascending
order followed by a newline; no header. -/
def ledgerContent (uris : List String) : String :=
  String.join ((sortedUris uris).map (fun u => u ++ "\n"))

/-- One file-system primitive used by `save_repost_log`. -/
inductive FsOp where
  | write (path : String) (content : String)
  | rename (src dst : String)
deriving Repr, DecidableEq

/-- A file system: the optional content at each path. -/
def Fs : Type := String → Option String

/-- Effect of one primitive: `write` replaces the content at the path;
`rename` (`os.replace`) moves the source content onto the destination and
removes the source. -/
def applyOp (fs : Fs) : FsOp → Fs
  | .write p c => Function.update fs p (some c)
  | .rename src dst =>
    fun q => if q = dst then fs src else if q = src then none else fs q

/-- Apply a sequence of file-system primitives in order. -/
def runOps (fs : Fs) : List FsOp → Fs
  | [] => fs
  | op :: rest => runOps (applyOp fs op) rest

/-- The exact effect sequence of `save_repost_log(path, uris)`: write the
whole new content to `path + ".tmp"`, then `os.replace` it over `path`. -/
def save_repost_log (path : String) (uris : List String) : List FsOp :=
  [.write (path ++ ".tmp") (ledgerContent uris),
   .rename (path ++ ".tmp") path]

/-- One page of `get_feed` as a function of the iteration index: the batch
(`getattr(out, "feed", []) or []`, already coalesced to a list) and the
continuation cursor. Indexing by iteration number models an arbitrary
sequence of responses from the source. -/
abbrev FeedSource (α : Type) := Nat → List α × Option String

/-- The `while True` loop of `fetch_feed_items`, fuelled: `none` means the
loop has not terminated within `fuel` iterations. The loop extends the
accumulated items with the page batch and breaks when the cursor is falsy
(`if not cursor`) or the accumulated count has reached the cap; on exit
the code returns `items[:FEED_MAX_ITEMS]`. -/
def fetchLoop {α : Type} (src : FeedSource α) (cap : Nat) :
    Nat → Nat → List α → Option (List α)
  | 0, _, _ => none
  | fuel + 1, i, items =>
    let page := src i
    let items2 := items ++ page.1
    if truthy page.2 = false ∨ cap ≤ items2.length then some (items2.take cap)
    else fetchLoop src cap fuel (i + 1) items2

/-- `fetch_feed_items(client, feed_uri)` with the client's responses given
by `src` and `FEED_MAX_ITEMS` by `cap`, fuelled. -/
def fetch_feed_items {α : Type} (src : FeedSource α) (cap fuel : Nat) : Option (List α) :=
  fetchLoop src cap fuel 0 []

/-- Termination of the aggregation loop: some amount of fuel suffices. -/
def fetchTerminates {α : Type} (src : FeedSource α) (cap : Nat) : Prop :=
  ∃ fuel, (fetch_feed_items src cap fuel).isSome

/-- The embed attribute of a post record; each field is the truthiness of
the corresponding attribute (`images` a non-empty list, `video`, `record`
and `recordWithMedia` present and truthy). -/
structure Embed where
  images : Bool
  video : Bool
  record : Bool
  recordWithMedia : Bool
deriving Repr, DecidableEq

/-- `post.record`: `reply` is the truthiness of `record.reply`, `embed`
its optional embed, and `ts` gathers the four timestamp-bearing attributes
of the record probed by `parse_time`. -/
structure PostRecord where
  reply : Bool
  embed : Option Embed
  ts : TsSource
deriving Repr, DecidableEq

/-- `item.post`: `author_did` models `getattr(post.author, "did", None)`
and `ts` gathers the timestamp-bearing attributes of the post wrapper
probed by `parse_time`. -/
structure Post where
  uri : String
  cid : String
  author_did : Option String
  record : PostRecord
  ts : TsSource
deriving Repr, DecidableEq

/-- One raw feed item: `reason` is the truthiness of
`hasattr(item, "reason") and item.reason is not None`. -/
structure FeedItem where
  post : Post
  reason : Bool
deriving Repr, DecidableEq

/-- `has_media(record)`: false when the embed is absent, else whether the
embed carries images or a video. -/
def has_media (record : PostRecord) : Bool :=
  match record.embed with
  | none => false
  | some embed => embed.images || embed.video

/-- `is_quote_post(record)`: false when the embed is absent, else whether
the embed carries a quoted record (plain or with media). -/
def is_quote_post (record : PostRecord) : Bool :=
  match record.embed with
  | none => false
  | some embed => embed.record || embed.recordWithMedia

/-- A surviving candidate, with the fields `main` stores for it. -/
structure Candidate where
  uri : String
  cid : String
  author_did : String
  created : DT
deriving Repr, DecidableEq

/-- The filter chain of `main` applied to one raw item, in source order:
ledger dedup, boost (`reason`), reply, quote, media, recency (timestamp
parse and cutoff), truthy author did, stoplist. Returns the candidate
record appended by the loop, or `none` when any filter rejects. -/
def itemCandidate (done stop : Finset String) (cutoff : DT)
    (parse : String → Option DT) (item : FeedItem) : Option Candidate :=
  let post := item.post
  let record := post.record
  if post.uri ∈ done then none
  else if item.reason then none
  else if record.reply then none
  else if is_quote_post record then none
  else if has_media record = false then none
  else
    match parse_time parse record.ts post.ts with
    | none => none
    | some created =>
      if created < cutoff then none
      else
        match post.author_did with
        | none => none
        | some a =>
          if a = "" then none
          else if a ∈ stop then none
          else some { uri := post.uri, cid := post.cid, author_did := a, created := created }

/-- The candidate-collection loop of `main` over the pooled raw items of
all configured feeds (feeds are fetched in order and their items appended
to one growing list, so a single list of raw items captures the pool). -/
def collectCandidates (done stop : Finset String) (cutoff : DT)
    (parse : String → Option DT) (items : List FeedItem) : List Candidate :=
  items.filterMap (itemCandidate done stop cutoff parse)

/-- The seven filters exactly as the spec lists them for claim C3 (ledger,
boost, quote, media, reply, recency, block); this definition follows the
spec's words, for comparison with the source-derived `itemCandidate`. -/
def passesSevenFilters (done stop : Finset String) (cutoff : DT)
    (parse : String → Option DT) (item : FeedItem) : Bool :=
  decide (item.post.uri ∉ done) &&
  !item.reason &&
  !(is_quote_post item.post.record) &&
  has_media item.post.record &&
  !item.post.record.reply &&
  (match parse_time parse item.post.record.ts item.post.ts with
   | none => false
   | some t => decide (cutoff ≤ t)) &&
  (match item.post.author_did with
   | none => true
   | some a => decide (a ∉ stop))

/-- The comparison `candidates.sort(key=lambda x: x["created"])` sorts by:
ascending creation timestamp. -/
def candLe (a b : Candidate) : Prop :=
  a.created ≤ b.created

instance : DecidableRel candLe :=
  fun a b => inferInstanceAs (Decidable (a.created ≤ b.created))

instance : IsTotal Candidate candLe :=
  ⟨fun a b => Int.le_total a.created b.created⟩

instance : IsTrans Candidate candLe :=
  ⟨fun _ _ _ h1 h2 => Int.le_trans h1 h2⟩

/-- `candidates.sort(key=lambda x: x["created"])`: Python's `list.sort` is
a stable ascending sort, and a stable sort's output is uniquely determined
by the key order and the input order, so stable insertion sort is an exact
model of it. -/
def sortCandidates (cs : List Candidate) : List Candidate :=
  List.insertionSort candLe cs

/-- The scheduler configuration drawn from the environment. -/
structure SchedConfig where
  maxPerRun : Nat
  maxPerUser : Nat
  postDelay : Nat
  followOnRepost : Bool
deriving Repr, DecidableEq

/-- The default configuration values of the environment block:
`MAX_PER_RUN` 100, `MAX_PER_USER` 10, `POST_DELAY_SECONDS` 3,
`FOLLOW_ON_REPOST` off. -/
def defaultConfig : SchedConfig :=
  { maxPerRun := 100, maxPerUser := 10, postDelay := 3, followOnRepost := false }

/-- Outcomes of the external network calls for a given candidate:
`repostOk c = false` models `repost.create` raising (caught by the
scheduler's `except`), `likeOk` and `followOk` the booleans returned by
`do_like` and `do_follow_if_needed` (both swallow their own errors). -/
structure Actions where
  repostOk : Candidate → Bool
  likeOk : Candidate → Bool
  followOk : Candidate → Bool

/-- The mutable run state of `main`'s scheduler loop: the ledger set
`done`, the counters, the per-author counter dictionary (a total function
with default 0, observationally equal to `dict` + `setdefault(au, 0)`),
plus two observation logs: `attempted` records the uri of every invocation
of the repost action (successful or raising), and `sleeps` every
`time.sleep` duration, in order. -/
structure RunState where
  done : Finset String
  reposted : Nat
  liked : Nat
  followed : Nat
  per_user : String → Nat
  attempted : List String
  sleeps : List Nat

/-- The state at the top of the scheduler loop: the loaded ledger, zero
counters, empty per-author dictionary. -/
def initState (done : Finset String) : RunState :=
  { done := done, reposted := 0, liked := 0, followed := 0,
    per_user := fun _ => 0, attempted := [], sleeps := [] }

/-- The scheduler loop of `main` over the sorted candidates, in source
order: `break` once the global count has reached `MAX_PER_RUN` (returning
the state unchanged, the remaining candidates untouched); `continue` past
a candidate whose author is at `MAX_PER_USER`; otherwise invoke the repost
action — on success add the uri to the ledger, bump both counters, run the
best-effort like and follow, and sleep `POST_DELAY_SECONDS`; on a raise,
sleep the fixed 5 seconds and continue with the next candidate. -/
def runSched (cfg : SchedConfig) (act : Actions) : RunState → List Candidate → RunState
  | st, [] => st
  | st, c :: rest =>
    if cfg.maxPerRun ≤ st.reposted then st
    else if cfg.maxPerUser ≤ st.per_user c.author_did then
      runSched cfg act st rest
    else if act.repostOk c then
      runSched cfg act
        { done := insert c.uri st.done
          reposted := st.reposted + 1
          liked := st.liked + (if act.likeOk c then 1 else 0)
          followed := st.followed + (if cfg.followOnRepost && act.followOk c then 1 else 0)
          per_user := Function.update st.per_user c.author_did (st.per_user c.author_did + 1)
          attempted := st.attempted ++ [c.uri]
          sleeps := st.sleeps ++ [cfg.postDelay] } rest
    else
      runSched cfg act
        { st with attempted := st.attempted ++ [c.uri], sleeps := st.sleeps ++ [5] } rest

/-- One whole run on a fixed input snapshot: collect the candidates from
the pooled raw feed items against the loaded ledger, sort ascending by
creation time, and run the scheduler from fresh counters. -/
def runPipeline (cfg : SchedConfig) (act : Actions) (done stop : Finset String)
    (cutoff : DT) (parse : String → Option DT) (items : List FeedItem) : RunState :=
  runSched cfg act (initState done) (sortCandidates (collectCandidates done stop cutoff parse items))

/-! ### Concrete inputs used by counterexamples and witnesses -/

/-- A parser for concrete runs: recognises the two tokens "A" (time 1)
and "B" (time 2); anything else fails to parse. -/
def parseDemo : String → Option DT :=
  fun s => if s = "A" then some 1 else if s = "B" then some 2 else none

/-- An embed carrying a single image. -/
def imageEmbed : Embed :=
  { images := true, video := false, record := false, recordWithMedia := false }

/-- A raw item that passes every filter: an original, non-reply,
non-quote post with an image, record timestamp "A" (time 1), by a real
author. -/
def itemDemo : FeedItem :=
  { post :=
      { uri := "at://item-demo", cid := "cid-demo",
        author_did := some "did:demo",
        record := { reply := false, embed := some imageEmbed,
                    ts := { createdAt := some "A", indexedAt := none,
                            created_at := none, timestamp := none } },
        ts := { createdAt := none, indexedAt := none,
                created_at := none, timestamp := none } },
    reason := false }

/-- `itemDemo` with the author did absent. -/
def itemNoAuthor : FeedItem :=
  { itemDemo with post := { itemDemo.post with author_did := none } }

/-- Actions where every repost call succeeds and like/follow report
false. -/
def actAllOk : Actions :=
  { repostOk := fun _ => true, likeOk := fun _ => false, followOk := fun _ => false }

/-- Actions where every repost call raises. -/
def actAllFail : Actions :=
  { repostOk := fun _ => false, likeOk := fun _ => false, followOk := fun _ => false }

/-- The candidate that `itemDemo` turns into. -/
def candDemo : Candidate :=
  { uri := "at://item-demo", cid := "cid-demo", author_did := "did:demo", created := 1 }

/-- A feed source that forever reports a truthy cursor and an empty
batch. -/
def emptyPageSource : FeedSource Unit :=
  fun _ => ([], some "cursor")

/-- A feed source that forever reports a truthy cursor and a one-item
batch. -/
def onePageSource : FeedSource Unit :=
  fun _ => ([()], some "cursor")

/-! ### Characterisation of the filter chain -/

/-- Full characterisation of a successful pass through the filter chain:
`itemCandidate` yields `some c` exactly when every guard of the source
loop passes and `c` is the record the loop appends. -/
theorem itemCandidate_some_iff {done stop : Finset String} {cutoff : DT}
    {parse : String → Option DT} {item : FeedItem} {c : Candidate} :
    itemCandidate done stop cutoff parse item = some c ↔
      ∃ t a, parse_time parse item.post.record.ts item.post.ts = some t ∧
        item.post.author_did = some a ∧
        item.post.uri ∉ done ∧ item.reason = false ∧
        item.post.record.reply = false ∧
        is_quote_post item.post.record = false ∧
        has_media item.post.record = true ∧
        ¬ t < cutoff ∧ a ≠ "" ∧ a ∉ stop ∧
        c = { uri := item.post.uri, cid := item.post.cid, author_did := a, created := t } := by
  simp only [itemCandidate]
  by_cases h1 : item.post.uri ∈ done
  · simp [h1]
  by_cases h2 : item.reason
  · simp [h1, h2]
  by_cases h3 : item.post.record.reply
  · simp [h1, h2, h3]
  by_cases h4 : is_quote_post item.post.record
  · simp [h1, h2, h3, h4]
  by_cases h5 : has_media item.post.record
  swap
  · simp [h1, h2, h3, h4, h5]
  cases hpt : parse_time parse item.post.record.ts item.post.ts with
  | none => simp [h1, h2, h3, h4, h5, hpt]
  | some t =>
    by_cases h6 : t < cutoff
    · simp [h1, h2, h3, h4, h5, hpt, h6]
    cases hau : item.post.author_did with
    | none => simp [h1, h2, h3, h4, h5, hpt, h6, hau]
    | some a =>
      by_cases h7 : a = ""
      · simp [h1, h2, h3, h4, h5, hpt, h6, hau, h7]
      by_cases h8 : a ∈ stop
      · simp [h1, h2, h3, h4, h5, hpt, h6, hau, h7, h8]
      · simp [h1, h2, h3, h4, h5, hpt, h6, hau, h7, h8, eq_comm, Int.not_lt.mp h6]

/-! ### C9 — ledger loading -/

/-- Claim C9, counterexample to the claim as stated: for the existing
one-line file `" a "`, the code returns the stripped line `"a"`, not the
verbatim non-blank line `" a "` — so `load_repost_log` does not return
"the set of its non-blank lines". -/
theorem c9_counterexample :
    load_repost_log (some [" a "]) ≠ load_nonBlankLines [" a "] := by
  decide

/-- Claim C9 (amended): loading from a path with no file returns the
empty set and is not an error (the function is total); for an existing
file, a uri is in the returned set exactly when it is the
whitespace-stripped form of one of the file's lines and is non-empty. -/
theorem c9_load_ledger :
    load_repost_log none = ∅ ∧
    ∀ (lines : List String) (u : String),
      u ∈ load_repost_log (some lines) ↔ u ≠ "" ∧ ∃ l ∈ lines, pyStrip l = u := by
  refine ⟨rfl, fun lines u => ?_⟩
  simp only [load_repost_log, List.mem_toFinset, List.mem_filter, List.mem_map,
    decide_eq_true_eq]
  constructor
  · rintro ⟨⟨l, hl, rfl⟩, hne⟩
    exact ⟨hne, l, hl, rfl⟩
  · rintro ⟨hne, l, hl, rfl⟩
    exact ⟨⟨l, hl, rfl⟩, hne⟩

/-! ### C4 — timestamp extraction order -/

/-- Claim C4, counterexample to the claim as stated: with the record
carrying only `indexedAt = "B"` and the post wrapper only
`createdAt = "A"`, checking the whole field list on the record first would
yield time 2 (the record's `indexedAt`), but the code yields time 1 (the
wrapper's `createdAt`): the loop interleaves record and wrapper per field
name rather than exhausting the record's list first. -/
theorem c4_counterexample :
    parse_time parseDemo
        { createdAt := none, indexedAt := some "B", created_at := none, timestamp := none }
        { createdAt := some "A", indexedAt := none, created_at := none, timestamp := none }
      = some 1 ∧
    parse_time_specOrder parseDemo
        { createdAt := none, indexedAt := some "B", created_at := none, timestamp := none }
        { createdAt := some "A", indexedAt := none, created_at := none, timestamp := none }
      = some 2 := by
  decide

/-- Claim C4 (amended): for each timestamp field name in the fixed order
`createdAt, indexedAt, created_at, timestamp`, the value checked is the
content record's if truthy, else the feed wrapper's; the first such value
that parses wins (first conjunct, an equivalent first-success
formulation); a value that is absent or fails to parse is skipped and the
next field name is tried (second conjunct); extraction is total by
construction — parser failures are `none`, never an exception; and a
collected candidate always stems from a parsed timestamp not older than
the cutoff (third conjunct). -/
theorem c4_parse_time_order :
    (∀ (parse : String → Option DT) (record post : TsSource),
      parse_time parse record post =
        List.findSome? (fun ab => (pickVal ab.1 ab.2).bind parse)
          [(record.createdAt, post.createdAt), (record.indexedAt, post.indexedAt),
           (record.created_at, post.created_at), (record.timestamp, post.timestamp)]) ∧
    (∀ (parse : String → Option DT) (v : Option String) (vs : List (Option String)),
      v.bind parse = none → firstParse parse (v :: vs) = firstParse parse vs) ∧
    (∀ (done stop : Finset String) (cutoff : DT) (parse : String → Option DT)
        (item : FeedItem) (c : Candidate),
      itemCandidate done stop cutoff parse item = some c →
      ∃ t, parse_time parse item.post.record.ts item.post.ts = some t ∧
        cutoff ≤ t ∧ c.created = t) := by
  refine ⟨fun parse record post => ?_, fun parse v vs hv => ?_, ?_⟩
  · have aux : ∀ l : List (Option String),
        firstParse parse l = l.findSome? (fun v => v.bind parse) := by
      intro l
      induction l with
      | nil => rfl
      | cons v rest ih =>
        cases v with
        | none => simpa [firstParse, List.findSome?] using ih
        | some s =>
          cases hp : parse s with
          | none => simpa [firstParse, List.findSome?, hp] using ih
          | some t => simp [firstParse, List.findSome?, hp]
    rw [parse_time, aux]
    rfl
  · cases v with
    | none => rfl
    | some s =>
      cases hp : parse s with
      | none => simp [firstParse, hp]
      | some t => simp [Option.bind] at hv; simp [hp] at hv
  · intro done stop cutoff parse item c h
    obtain ⟨t, a, hpt, -, -, -, -, -, -, hcut, -, -, hc⟩ := itemCandidate_some_iff.mp h
    exact ⟨t, hpt, Int.not_lt.mp hcut, by rw [hc]⟩

/-- Witness for `c4_parse_time_order`: its hypotheses discharged at
concrete inputs — a failing value is skipped by the attribute loop, and
the concrete run of `itemCandidate` on `itemDemo` stems from parsed time
1 ≥ cutoff 0. -/
theorem c4_parse_time_order_witness :
    (Option.bind (some "zz") parseDemo = none ∧
      firstParse parseDemo [some "zz", some "A"] = firstParse parseDemo [some "A"]) ∧
    (itemCandidate ∅ ∅ 0 parseDemo itemDemo = some candDemo ∧
      ∃ t, parse_time parseDemo itemDemo.post.record.ts itemDemo.post.ts = some t ∧
        (0 : DT) ≤ t ∧ candDemo.created = t) :=
  ⟨⟨by decide, c4_parse_time_order.2.1 parseDemo (some "zz") [some "A"] (by decide)⟩,
   ⟨by decide, c4_parse_time_order.2.2 ∅ ∅ 0 parseDemo itemDemo candDemo (by decide)⟩⟩

/-! ### C8 — feed aggregation termination -/

/-- Helper for the C8 counterexample: against a source that always
returns an empty batch and a truthy cursor, the loop never exits while
the accumulated count is below the cap. -/
theorem fetchLoop_emptyPage_none :
    ∀ (fuel i : Nat) (items : List Unit), items.length < 1000 →
      fetchLoop emptyPageSource 1000 fuel i items = none := by
  intro fuel
  induction fuel with
  | zero => intro i items _; rfl
  | succ fuel ih =>
    intro i items hlen
    have : (items ++ ([] : List Unit)).length < 1000 := by simpa using hlen
    simp only [fetchLoop, emptyPageSource]
    rw [if_neg (by simp [truthy]; omega)]
    exact ih (i + 1) (items ++ []) this

/-- Claim C8, counterexample to the claim as stated: a source that keeps
returning a (truthy) cursor with an empty batch makes the `while True`
loop of `fetch_feed_items` spin forever — no amount of fuel makes it
terminate — so aggregation does not terminate for every sequence of
feed-page responses. -/
theorem c8_counterexample : ¬ fetchTerminates emptyPageSource 1000 := by
  rintro ⟨fuel, hsome⟩
  rw [fetch_feed_items, fetchLoop_emptyPage_none fuel 0 [] (by decide)] at hsome
  exact absurd hsome (by simp)

/-- Helper for C8 (amended): if every page contributes at least one item,
enough fuel makes the loop exit. -/
theorem fetchLoop_terminates_of_progress {α : Type} (src : FeedSource α) (cap : Nat)
    (hsrc : ∀ i, (src i).1 ≠ []) :
    ∀ (fuel i : Nat) (items : List α), cap ≤ items.length + fuel →
      (fetchLoop src cap (fuel + 1) i items).isSome := by
  intro fuel
  induction fuel with
  | zero =>
    intro i items hlen
    have hl : cap ≤ items.length + (src i).1.length := by omega
    simp [fetchLoop, List.length_append, hl]
  | succ fuel ih =>
    intro i items hlen
    rw [fetchLoop]
    split
    · simp
    · refine ih (i + 1) (items ++ (src i).1) ?_
      have : 1 ≤ (src i).1.length := List.length_pos.mpr (hsrc i)
      simp only [List.length_append]
      omega

/-- Helper for C8 (amended): whatever the source, a result the loop does
return holds at most `cap` items. -/
theorem fetchLoop_length_le {α : Type} (src : FeedSource α) (cap : Nat) :
    ∀ (fuel i : Nat) (items out : List α),
      fetchLoop src cap fuel i items = some out → out.length ≤ cap := by
  intro fuel
  induction fuel with
  | zero => intro i items out h; exact absurd h (by simp [fetchLoop])
  | succ fuel ih =>
    intro i items out h
    rw [fetchLoop] at h
    split at h
    · cases h
      exact List.length_take_le ..
    · exact ih (i + 1) (items ++ (src i).1) out h

/-- Claim C8 (amended): aggregation stops when the source reports a falsy
cursor or the accumulated count reaches the cap, and always returns at
most `FEED_MAX_ITEMS` items (second conjunct); it terminates whenever
every page carries at least one item — `cap + 1` iterations always
suffice (first conjunct) — and a first page with no further cursor ends
it at once (third conjunct); but a source that forever returns a cursor
with an empty batch loops indefinitely (the code has no liveness guard;
see the counterexample). -/
theorem c8_fetch_termination :
    (∀ {α : Type} (src : FeedSource α) (cap : Nat),
      (∀ i, (src i).1 ≠ []) → (fetch_feed_items src cap (cap + 1)).isSome) ∧
    (∀ {α : Type} (src : FeedSource α) (cap fuel : Nat) (out : List α),
      fetch_feed_items src cap fuel = some out → out.length ≤ cap) ∧
    (∀ {α : Type} (src : FeedSource α) (cap : Nat),
      truthy (src 0).2 = false → fetch_feed_items src cap 1 = some ((src 0).1.take cap)) := by
  refine ⟨fun src cap hsrc => ?_, fun src cap fuel out h => ?_, fun src cap hcur => ?_⟩
  · exact fetchLoop_terminates_of_progress src cap hsrc cap 0 [] (by simp)
  · exact fetchLoop_length_le src cap fuel 0 [] out h
  · simp [fetch_feed_items, fetchLoop, hcur]

/-- Witness for `c8_fetch_termination`: discharged at the one-item-a-page
source with cap 2, and at a source whose first page has no cursor. -/
theorem c8_fetch_termination_witness :
    ((∀ i, (onePageSource i).1 ≠ []) ∧ (fetch_feed_items onePageSource 2 3).isSome) ∧
    (fetch_feed_items onePageSource 2 3 = some [(), ()] ∧ ([(), ()] : List Unit).length ≤ 2) ∧
    (truthy ((fun _ => (([()] : List Unit), none)) (0 : Nat)).2 = false ∧
      fetch_feed_items (fun _ => (([()] : List Unit), none)) 5 1 = some [()]) :=
  ⟨⟨fun _ => List.cons_ne_nil _ _, c8_fetch_termination.1 onePageSource 2 (fun _ => List.cons_ne_nil _ _)⟩,
   ⟨by decide,
    c8_fetch_termination.2.1 onePageSource 2 3 [(), ()] (by decide)⟩,
   ⟨by decide, c8_fetch_termination.2.2 (fun _ => (([()] : List Unit), none)) 5 (by decide)⟩⟩

/-! ### C3 — the filter chain and candidacy -/

/-- Claim C3, counterexample to the claim as stated: an item that passes
all seven listed filters (its author id is absent, hence in particular not
in the block-set) still does not become a candidate — the code applies an
eighth guard on the author identifier — so passing the seven filters is
not sufficient for candidacy. -/
theorem c3_counterexample :
    passesSevenFilters ∅ ∅ 0 parseDemo itemNoAuthor = true ∧
    itemCandidate ∅ ∅ 0 parseDemo itemNoAuthor = none := by
  decide

/-- Claim C3 (amended): an item becomes a candidate if and only if it
passes the seven listed filters AND its post carries a truthy author
identifier (the eighth guard of the loop); the seven filters remain
necessary, but only together with the author guard are they sufficient. -/
theorem c3_seven_filters_iff :
    ∀ (done stop : Finset String) (cutoff : DT) (parse : String → Option DT)
      (item : FeedItem),
      (itemCandidate done stop cutoff parse item).isSome = true ↔
        (passesSevenFilters done stop cutoff parse item = true ∧
          truthy item.post.author_did = true) := by
  intro done stop cutoff parse item
  rw [Option.isSome_iff_exists]
  constructor
  · rintro ⟨c, hc⟩
    obtain ⟨t, a, hpt, hau, hd, hr, hrep, hq, hm, hcut, ha, hstop, -⟩ :=
      itemCandidate_some_iff.mp hc
    refine ⟨?_, ?_⟩
    · simp [passesSevenFilters, hpt, hau, hd, hr, hrep, hq, hm, Int.not_lt.mp hcut, hstop]
    · simp [truthy, hau, ha]
  · rintro ⟨h7, hau⟩
    cases hau' : item.post.author_did with
    | none => rw [hau'] at hau; simp [truthy] at hau
    | some a =>
      rw [hau'] at hau
      have ha : a ≠ "" := by simpa [truthy] using hau
      simp only [passesSevenFilters, Bool.and_eq_true, decide_eq_true_eq,
        Bool.not_eq_true'] at h7
      obtain ⟨⟨⟨⟨⟨⟨hd, hr⟩, hq⟩, hm⟩, hrep⟩, hrec⟩, hstop⟩ := h7
      cases hpt : parse_time parse item.post.record.ts item.post.ts with
      | none => rw [hpt] at hrec; simp at hrec
      | some t =>
        rw [hpt] at hrec
        have hcut : cutoff ≤ t := by simpa using hrec
        rw [hau'] at hstop
        have hstop' : a ∉ stop := by simpa using hstop
        exact ⟨_, itemCandidate_some_iff.mpr
          ⟨t, a, hpt, hau', hd, hr, hrep, hq, hm, Int.not_lt.mpr hcut, ha, hstop', rfl⟩⟩

/-! ### C10 — the implicit author-identifier filter -/

/-- Claim C10: an item whose post carries no author identifier (absent or
empty did) is rejected and never becomes a candidate, so every collected
candidate holds a non-empty author identifier — the key under which the
per-author counters are kept. -/
theorem c10_author_guard :
    (∀ (done stop : Finset String) (cutoff : DT) (parse : String → Option DT)
        (item : FeedItem),
      (item.post.author_did = none ∨ item.post.author_did = some "") →
      itemCandidate done stop cutoff parse item = none) ∧
    (∀ (done stop : Finset String) (cutoff : DT) (parse : String → Option DT)
        (items : List FeedItem) (c : Candidate),
      c ∈ collectCandidates done stop cutoff parse items → c.author_did ≠ "") := by
  constructor
  · intro done stop cutoff parse item hau
    cases hic : itemCandidate done stop cutoff parse item with
    | none => rfl
    | some c =>
      exfalso
      obtain ⟨t, a, -, hau', -, -, -, -, -, -, ha, -, -⟩ := itemCandidate_some_iff.mp hic
      rcases hau with h | h
      · rw [h] at hau'; exact Option.noConfusion hau'
      · rw [h] at hau'; exact ha (Option.some_injective _ hau').symm
  · intro done stop cutoff parse items c hc
    obtain ⟨item, -, hic⟩ := List.mem_filterMap.mp hc
    obtain ⟨t, a, -, -, -, -, -, -, -, -, ha, -, hcc⟩ := itemCandidate_some_iff.mp hic
    rw [hcc]
    exact ha

/-- Witness for `c10_author_guard`: both parts discharged at concrete
inputs — the author-less variant of the demo item collapses to `none`,
and the collected demo candidate has a non-empty author did. -/
theorem c10_author_guard_witness :
    (itemNoAuthor.post.author_did = none ∧
      itemCandidate ∅ ∅ 0 parseDemo itemNoAuthor = none) ∧
    (candDemo ∈ collectCandidates ∅ ∅ 0 parseDemo [itemDemo] ∧
      candDemo.author_did ≠ "") :=
  ⟨⟨by decide, c10_author_guard.1 ∅ ∅ 0 parseDemo itemNoAuthor (Or.inl (by decide))⟩,
   ⟨by decide, c10_author_guard.2 ∅ ∅ 0 parseDemo [itemDemo] candDemo (by decide)⟩⟩

/-! ### C1 — ledger dedup in the scheduler -/

/-- Every uri for which the scheduler invokes the repost action is either
one it had already attempted or the uri of one of the candidates it was
given. -/
theorem runSched_attempted_mem (cfg : SchedConfig) (act : Actions) :
    ∀ (cs : List Candidate) (st : RunState) (u : String),
      u ∈ (runSched cfg act st cs).attempted →
      u ∈ st.attempted ∨ ∃ c ∈ cs, c.uri = u := by
  intro cs
  induction cs with
  | nil => intro st u h; exact Or.inl h
  | cons c rest ih =>
    intro st u h
    rw [runSched] at h
    split at h
    · exact Or.inl h
    · split at h
      · rcases ih _ _ h with h' | ⟨c', hc', hu⟩
        · exact Or.inl h'
        · exact Or.inr ⟨c', List.mem_cons_of_mem c hc', hu⟩
      · split at h
        all_goals
          rcases ih _ _ h with h' | ⟨c', hc', hu⟩
          · rcases List.mem_append.mp h' with h'' | h''
            · exact Or.inl h''
            · exact Or.inr ⟨c, List.mem_cons_self c rest, (List.mem_singleton.mp h'').symm⟩
          · exact Or.inr ⟨c', List.mem_cons_of_mem c hc', hu⟩

/-- Claim C1, counterexample to the claim as stated: when the same uri is
surfaced as two separate raw items (e.g. by two configured feeds), both
pass the filter chain — the ledger is only consulted against its state at
collection time — and the scheduler invokes the repost action twice for
that uri in one run, the second time with the uri already in the (run)
ledger from the first success: a uri is reposted twice within a run. -/
theorem c1_counterexample :
    (runPipeline defaultConfig actAllOk ∅ ∅ 0 parseDemo [itemDemo, itemDemo]).attempted
      = ["at://item-demo", "at://item-demo"] := by
  decide

/-- Claim C1 (amended): the scheduler never invokes a repost action for
an item whose uri was in the Ledger when the candidates were collected
(whether loaded at start of this run or saved by an earlier run); uris
added to the Ledger later in the same run are not re-checked, so only a
uri surfaced as two distinct candidates can be reposted twice within a
run. -/
theorem c1_ledger_dedup :
    ∀ (cfg : SchedConfig) (act : Actions) (done stop : Finset String) (cutoff : DT)
      (parse : String → Option DT) (items : List FeedItem) (u : String),
      u ∈ done → u ∉ (runPipeline cfg act done stop cutoff parse items).attempted := by
  intro cfg act done stop cutoff parse items u hu hmem
  rw [runPipeline] at hmem
  rcases runSched_attempted_mem cfg act _ _ u hmem with h | ⟨c, hc, hcu⟩
  · exact absurd h (List.not_mem_nil u)
  · have hc' : c ∈ collectCandidates done stop cutoff parse items := by
      rw [sortCandidates] at hc
      exact (List.mem_insertionSort candLe).mp hc
    obtain ⟨item, -, hic⟩ := List.mem_filterMap.mp hc'
    obtain ⟨t, a, -, -, hd, -, -, -, -, -, -, -, hcc⟩ := itemCandidate_some_iff.mp hic
    have h4 : item.post.uri = u := by rw [← hcu, hcc]
    exact hd (by rw [h4]; exact hu)

/-- Witness for `c1_ledger_dedup`: with the demo item's uri already in
the loaded ledger, the run never attempts it. -/
theorem c1_ledger_dedup_witness :
    "at://item-demo" ∈ ({"at://item-demo"} : Finset String) ∧
    "at://item-demo" ∉
      (runPipeline defaultConfig actAllOk {"at://item-demo"} ∅ 0 parseDemo
        [itemDemo]).attempted :=
  ⟨by decide,
   c1_ledger_dedup defaultConfig actAllOk {"at://item-demo"} ∅ 0 parseDemo [itemDemo]
     "at://item-demo" (by decide)⟩

/-! ### C2 — global and per-author rate caps -/

/-- The caps are invariant under the scheduler loop: if the global count
and every per-author count respect their caps before the loop, they do
after. -/
theorem runSched_caps_invariant (cfg : SchedConfig) (act : Actions) :
    ∀ (cs : List Candidate) (st : RunState),
      st.reposted ≤ cfg.maxPerRun → (∀ a, st.per_user a ≤ cfg.maxPerUser) →
      (runSched cfg act st cs).reposted ≤ cfg.maxPerRun ∧
      ∀ a, (runSched cfg act st cs).per_user a ≤ cfg.maxPerUser := by
  intro cs
  induction cs with
  | nil => intro st h1 h2; exact ⟨h1, h2⟩
  | cons c rest ih =>
    intro st h1 h2
    rw [runSched]
    by_cases hbrk : cfg.maxPerRun ≤ st.reposted
    · rw [if_pos hbrk]; exact ⟨h1, h2⟩
    rw [if_neg hbrk]
    by_cases hskip : cfg.maxPerUser ≤ st.per_user c.author_did
    · rw [if_pos hskip]; exact ih st h1 h2
    rw [if_neg hskip]
    by_cases hok : act.repostOk c
    · rw [if_pos hok]
      refine ih _ (by simp; omega) ?_
      intro a
      by_cases ha : a = c.author_did
      · subst ha
        simp only [Function.update_same]
        omega
      · simp only [Function.update_noteq ha]
        exact h2 a
    · rw [if_neg hok]
      exact ih _ h1 h2

/-- Claim C2: starting from fresh counters, the scheduler performs at
most `MAX_PER_RUN` successful reposts in a run and at most `MAX_PER_USER`
successful reposts per author (first conjunct); and a candidate whose
author has reached the per-author cap is skipped, the remaining
candidates being processed from an unchanged state (second conjunct —
skip, not stop). -/
theorem c2_rate_caps :
    (∀ (cfg : SchedConfig) (act : Actions) (done : Finset String) (cs : List Candidate),
      (runSched cfg act (initState done) cs).reposted ≤ cfg.maxPerRun ∧
      ∀ a, (runSched cfg act (initState done) cs).per_user a ≤ cfg.maxPerUser) ∧
    (∀ (cfg : SchedConfig) (act : Actions) (st : RunState) (c : Candidate)
        (rest : List Candidate),
      st.reposted < cfg.maxPerRun → cfg.maxPerUser ≤ st.per_user c.author_did →
      runSched cfg act st (c :: rest) = runSched cfg act st rest) := by
  constructor
  · intro cfg act done cs
    exact runSched_caps_invariant cfg act cs (initState done)
      (Nat.zero_le _) (fun _ => Nat.zero_le _)
  · intro cfg act st c rest h1 h2
    rw [runSched, if_neg (Nat.not_le.mpr h1), if_pos h2]

/-- Witness for `c2_rate_caps`: the cap bounds at the default
configuration on a one-candidate run, and a skip at a state whose
per-author counter sits at the cap. -/
theorem c2_rate_caps_witness :
    ((runSched defaultConfig actAllOk (initState ∅) [candDemo]).reposted ≤
        defaultConfig.maxPerRun ∧
      ∀ a, (runSched defaultConfig actAllOk (initState ∅) [candDemo]).per_user a ≤
        defaultConfig.maxPerUser) ∧
    ((initState ∅).reposted < defaultConfig.maxPerRun ∧
      defaultConfig.maxPerUser ≤
        ({ initState ∅ with per_user := fun _ => 10 } : RunState).per_user candDemo.author_did ∧
      runSched defaultConfig actAllOk { initState ∅ with per_user := fun _ => 10 }
          [candDemo] =
        runSched defaultConfig actAllOk { initState ∅ with per_user := fun _ => 10 } []) :=
  ⟨c2_rate_caps.1 defaultConfig actAllOk ∅ [candDemo],
   by decide, by decide,
   c2_rate_caps.2 defaultConfig actAllOk _ candDemo [] (by decide) (by decide)⟩

/-! ### C5 — repost failure leaves the state unchanged -/

/-- Claim C5: when the repost action raises for a candidate (below both
caps), the run state is unchanged for that candidate — the uri is not
added to the ledger, neither the global nor the author's counter moves,
no like/follow is counted — and the scheduler records the fixed 5-second
pause and continues with the remaining candidates. -/
theorem c5_repost_failure :
    ∀ (cfg : SchedConfig) (act : Actions) (st : RunState) (c : Candidate)
      (rest : List Candidate),
      ¬ cfg.maxPerRun ≤ st.reposted →
      ¬ cfg.maxPerUser ≤ st.per_user c.author_did →
      act.repostOk c = false →
      runSched cfg act st (c :: rest) =
        runSched cfg act
          { st with attempted := st.attempted ++ [c.uri], sleeps := st.sleeps ++ [5] }
          rest := by
  intro cfg act st c rest h1 h2 h3
  rw [runSched, if_neg h1, if_neg h2, if_neg (by simp [h3])]

/-- Witness for `c5_repost_failure`: its hypotheses discharged at the
initial state with the demo candidate and an always-raising repost
action. -/
theorem c5_repost_failure_witness :
    (¬ defaultConfig.maxPerRun ≤ (initState ∅).reposted) ∧
    (¬ defaultConfig.maxPerUser ≤ (initState ∅).per_user candDemo.author_did) ∧
    actAllFail.repostOk candDemo = false ∧
    runSched defaultConfig actAllFail (initState ∅) [candDemo] =
      runSched defaultConfig actAllFail
        { initState ∅ with
            attempted := (initState ∅).attempted ++ [candDemo.uri]
            sleeps := (initState ∅).sleeps ++ [5] } [] :=
  ⟨by decide, by decide, by decide,
   c5_repost_failure defaultConfig actAllFail (initState ∅) candDemo []
     (by decide) (by decide) (by decide)⟩

/-! ### C6 — ordering of the candidate pool -/

/-- Claim C6: the scheduler's input is the candidate pool sorted
ascending by creation time — the output of `sortCandidates` is sorted
(first conjunct) and a permutation of the pool (second conjunct) — and
the sort is stable: for every timestamp, the subsequence of candidates
carrying it is exactly the one of the input, in the same order (third
conjunct). `sortCandidates` is a pure function of the pool, so the order
is deterministic and reproducible on a fixed input snapshot. -/
theorem c6_sorted_stable :
    ∀ cs : List Candidate,
      List.Sorted candLe (sortCandidates cs) ∧
      List.Perm (sortCandidates cs) cs ∧
      ∀ t : DT, (sortCandidates cs).filter (fun c => decide (c.created = t)) =
        cs.filter (fun c => decide (c.created = t)) := by
  intro cs
  refine ⟨List.sorted_insertionSort candLe cs, List.perm_insertionSort candLe cs, ?_⟩
  intro t
  set p : Candidate → Bool := fun c => decide (c.created = t) with hp
  have hsub : List.Sublist (cs.filter p) cs := List.filter_sublist cs
  have hpw : (cs.filter p).Pairwise candLe := by
    apply List.pairwise_of_forall_mem_list
    intro x hx y hy
    have hxt : x.created = t := by simpa [hp] using (List.mem_filter.mp hx).2
    have hyt : y.created = t := by simpa [hp] using (List.mem_filter.mp hy).2
    rw [candLe, hxt, hyt]
  have h1 : List.Sublist (cs.filter p) (sortCandidates cs) :=
    List.sublist_insertionSort hpw hsub
  have h2 : List.Sublist (cs.filter p) ((sortCandidates cs).filter p) := by
    have hidem : (cs.filter p).filter p = cs.filter p :=
      List.filter_eq_self.mpr (fun a ha => (List.mem_filter.mp ha).2)
    exact hidem ▸ List.Sublist.filter p h1
  have h3 : List.Perm ((sortCandidates cs).filter p) (cs.filter p) :=
    (List.perm_insertionSort candLe cs).filter p
  exact (h2.eq_of_length h3.length_eq.symm).symm

/-! ### C7 — deterministic, idempotent, atomic ledger saving -/

/-- Claim C7: the saved ledger content lists the uris ascending (the
written order is sorted and a permutation of the set's iteration order —
first conjunct), newline-terminated with no header (definitional in
`ledgerContent`); saving the same set twice yields byte-identical content
whatever iteration order the set presents (second conjunct); and the save
is a write-to-temp-then-rename whose every intermediate state shows the
old content or the full new content at the ledger path, the final state
the new content (third conjunct). -/
theorem c7_save_sorted_atomic :
    (∀ uris : List String,
      List.Sorted (· ≤ ·) (sortedUris uris) ∧ List.Perm (sortedUris uris) uris) ∧
    (∀ u1 u2 : List String, List.Perm u1 u2 → ledgerContent u1 = ledgerContent u2) ∧
    (∀ (fs : Fs) (path : String) (uris : List String),
      runOps fs (save_repost_log path uris) path = some (ledgerContent uris) ∧
      ∀ n : Nat,
        runOps fs ((save_repost_log path uris).take n) path = fs path ∨
        runOps fs ((save_repost_log path uris).take n) path = some (ledgerContent uris)) := by
  have hsort : ∀ uris : List String,
      List.Sorted (· ≤ ·) (sortedUris uris) ∧ List.Perm (sortedUris uris) uris :=
    fun uris => ⟨List.sorted_insertionSort _ uris, List.perm_insertionSort _ uris⟩
  refine ⟨hsort, fun u1 u2 hperm => ?_, fun fs path uris => ?_⟩
  · have : sortedUris u1 = sortedUris u2 :=
      List.eq_of_perm_of_sorted
        (((hsort u1).2.trans hperm).trans (hsort u2).2.symm)
        (hsort u1).1 (hsort u2).1
    rw [ledgerContent, ledgerContent, this]
  · have hne : path ≠ path ++ ".tmp" := by
      intro h
      have h1 := congrArg String.length h
      rw [String.length_append] at h1
      have h2 : ".tmp".length = 4 := by decide
      omega
    constructor
    · simp [save_repost_log, runOps, applyOp, Function.update_same, hne,
        Function.update_noteq]
    · intro n
      match n with
      | 0 => exact Or.inl rfl
      | 1 =>
        exact Or.inl (by
          simp [save_repost_log, runOps, applyOp, Function.update_noteq hne])
      | (n + 2) =>
        exact Or.inr (by
          simp [save_repost_log, runOps, applyOp, Function.update_same, hne,
            Function.update_noteq])

/-- Witness for `c7_save_sorted_atomic`: the permutation hypothesis of
the idempotence conjunct discharged at two iteration orders of the same
two-element set. -/
theorem c7_save_sorted_atomic_witness :
    List.Perm (["b", "a"] : List String) ["a", "b"] ∧
    ledgerContent ["b", "a"] = ledgerContent ["a", "b"] :=
  ⟨by decide, c7_save_sorted_atomic.2.1 ["b", "a"] ["a", "b"] (by decide)⟩

end Milfbleusky
